import Mathlib

/-!
Verification development for the Acts track-reconstruction component:
the Gaussian grid track density (`GaussianGridTrackDensity`), the numerical
track linearizer (`NumericalTrackLinearizer::linearizeTrack`) and the global
chi-square fitter (`Gx2Fitter::fit` with its propagator `Actor`).

Modelling conventions:
- `float`/`double` values are embedded as `ℚ` (exact arithmetic); the C++
  constant `M_PI` is embedded as the exact value of the IEEE-754 double
  closest to π.
- Fixed-size Eigen vectors/matrices become `Fin n → ℚ` and
  `Matrix (Fin m) (Fin n) ℚ`.
- Eigen's `.inverse()` is embedded as `adjugate / det` (they agree whenever
  the matrix is invertible; no claim in this file depends on the value of an
  inverse of a singular matrix).
- External collaborators (propagator, stepper, calibrator, geometry) are
  abstract function parameters, following the spec's component boundaries.
-/

set_option maxRecDepth 4000

/-- The value of the C++ double constant `M_PI`: the IEEE-754 binary64 number
closest to π, namely `884279719003555 / 2^48`. -/
def mPI : ℚ := 884279719003555 / 281474976710656

/-- Bound track parameter vector (`BoundVector`, 6 entries): indices are
`eBoundLoc0 = 0`, `eBoundLoc1 = 1`, `eBoundPhi = 2`, `eBoundTheta = 3`,
`eBoundQOverP = 4`, `eBoundTime = 5`.  Modelled from the spec: the first four
bound dimensions are the two local positions and the angles phi/theta; the
remaining two are charge-over-momentum and time (the enum itself lives in
`TrackParametrization.hpp`, which is not among the sources). -/
abbrev BoundVec : Type := Fin 6 → ℚ

/-- A square 6x6 matrix over the bound parameter dimensions
(`BoundSquareMatrix`). -/
abbrev BoundMat : Type := Matrix (Fin 6) (Fin 6) ℚ

/-- Embedding of Eigen's `.inverse()` for square rational matrices:
`det⁻¹ • adjugate`.  For invertible input this is the true inverse; for
singular input Eigen produces unspecified values (here: the zero matrix);
no theorem below depends on that case. -/
def matInvQ {n : ℕ} (A : Matrix (Fin n) (Fin n) ℚ) : Matrix (Fin n) (Fin n) ℚ :=
  (A.det)⁻¹ • A.adjugate

section DensityGrid

/- ================================================================
   GaussianGridTrackDensity (header `GaussianGridTrackDensity.hpp`).
   The implementation file `GaussianGridTrackDensity.ipp` is not among
   the sources, so the grid-modifying operations are modelled from the
   spec and the header documentation.
   ================================================================ -/

variable {mainGridSize trkGridSize : ℕ}

/-- Configuration of the density grid (`GaussianGridTrackDensity::Config`):
`zMinMax` is the half-range of the z-axis covered by the main grid. -/
structure GridConfig where
  zMinMax : ℚ

/-- Bin size of the main grid: `2 * zMinMax / mainGridSize`
(from the `Config` constructor in the header). -/
def gridBinSize (cfg : GridConfig) (mainGridSize : ℕ) : ℚ :=
  2 * cfg.zMinMax / mainGridSize

/-- Modelled from the spec: the contribution of a track grid (a
`trkGridSize`-long vector anchored with its central bin at main-grid bin
`zBin`) to main-grid bin `j`; bins outside the window contribute zero and
window entries falling outside the main grid are dropped. -/
def trkContributionAt (zBin : ℤ) (trkGrid : Fin trkGridSize → ℚ)
    (j : Fin mainGridSize) : ℚ :=
  let k : ℤ := (j : ℤ) - (zBin - (trkGridSize : ℤ) / 2)
  if h : 0 ≤ k ∧ k < trkGridSize then trkGrid ⟨k.toNat, by omega⟩ else 0

/-- Modelled from the spec: `modifyMainGridWithTrackGrid` adds
(`modifyModeSign = +1`) or removes (`modifyModeSign = -1`) a single track's
density contribution, in place, bin by bin (declared in the header; the
implementation `.ipp` is not among the sources). -/
def modifyMainGridWithTrackGrid (zBin : ℤ) (trkGrid : Fin trkGridSize → ℚ)
    (mainGrid : Fin mainGridSize → ℚ) (modifyModeSign : ℚ) :
    Fin mainGridSize → ℚ :=
  fun j => mainGrid j + modifyModeSign * trkContributionAt zBin trkGrid j

/-- `addTrackGridToMainGrid`: modify with sign `+1` (header documentation). -/
def addTrackGridToMainGrid (zBin : ℤ) (trkGrid : Fin trkGridSize → ℚ)
    (mainGrid : Fin mainGridSize → ℚ) : Fin mainGridSize → ℚ :=
  modifyMainGridWithTrackGrid zBin trkGrid mainGrid 1

/-- `removeTrackGridFromMainGrid`: modify with sign `-1` (header
documentation: no validation that the contribution was actually present). -/
def removeTrackGridFromMainGrid (zBin : ℤ) (trkGrid : Fin trkGridSize → ℚ)
    (mainGrid : Fin mainGridSize → ℚ) : Fin mainGridSize → ℚ :=
  modifyMainGridWithTrackGrid zBin trkGrid mainGrid (-1)

/-- Modelled from the spec: `addTrack` rasterizes the track's 2D Gaussian
into a track grid (the Gaussian kernel `createTrackGrid`, whose
implementation is in the missing `.ipp`, is abstracted as the supplied
`trkGrid` vector), anchors it at the main-grid bin closest to the track's
z-position, adds it into the main grid in place, and returns the
`(binIndex, trackGrid)` pair together with the updated main grid. -/
def addTrack (trkGrid : Fin trkGridSize → ℚ) (zPos : ℚ) (cfg : GridConfig)
    (mainGrid : Fin mainGridSize → ℚ) :
    (ℤ × (Fin trkGridSize → ℚ)) × (Fin mainGridSize → ℚ) :=
  let zBin : ℤ := Int.floor ((zPos + cfg.zMinMax) / gridBinSize cfg mainGridSize)
  ((zBin, trkGrid), addTrackGridToMainGrid zBin trkGrid mainGrid)

end DensityGrid

/-- C5: `addTrack` followed immediately by `removeTrackGridFromMainGrid`
with the exact `(binIndex, trackGrid)` pair returned by that `addTrack`
restores every bin of the main grid to its value before the add (exactly,
in the rational embedding, hence within any floating-point tolerance). -/
theorem grid_addRemove_roundtrip {mainGridSize trkGridSize : ℕ}
    (trkGrid : Fin trkGridSize → ℚ) (zPos : ℚ) (cfg : GridConfig)
    (mainGrid : Fin mainGridSize → ℚ) :
    removeTrackGridFromMainGrid
      (addTrack trkGrid zPos cfg mainGrid).1.1
      (addTrack trkGrid zPos cfg mainGrid).1.2
      (addTrack trkGrid zPos cfg mainGrid).2 = mainGrid := by
  funext j
  simp only [addTrack, removeTrackGridFromMainGrid, addTrackGridToMainGrid,
    modifyMainGridWithTrackGrid]
  ring

section Linearizer

/- ================================================================
   NumericalTrackLinearizer::linearizeTrack
   (`NumericalTrackLinearizer.ipp`).
   The track handed to a propagation is fully described by the 7-entry
   "linearizer" vector `(x, y, z, t, phi, theta, q/p)` (source lines
   59-84 and the curvilinear construction at lines 111-115), with
   indices `eLinPhi = 4`, `eLinTheta = 5`, `eLinQOverP = 6`,
   `eLinPosSize = 4`, `eLinSize = 7` as forced by the layout of
   `paramVec`.  The propagator (including the perigee-surface
   intersection used only to pick the propagation direction) is an
   abstract collaborator: it maps such a 7-vector to the bound state at
   the point of closest approach, or fails.
   ================================================================ -/

/-- The 7-entry linearizer parameter vector `(x, y, z, t, phi, theta, q/p)`
(`ActsVector<eLinSize>`). -/
abbrev LinVec : Type := Fin 7 → ℚ

/-- The data the linearizer reads off a successful propagation's end
parameters: the bound parameter vector w.r.t. the perigee surface
(`endParams.parameters()`), the global position (`endParams.position(gctx)`),
the global time (`endParams.time()`) and the optional bound covariance
(`endParams.covariance()`). -/
structure EndState where
  params : BoundVec
  pos : Fin 3 → ℚ
  time : ℚ
  cov : Option BoundMat
deriving DecidableEq

/-- An abstract propagator to the perigee surface: the external collaborator
`m_cfg.propagator->propagate(...)`, absorbing the straight-line intersection
that merely selects the propagation direction.  `none` models a failed
propagation (`Result` in error state). -/
abbrev PcaPropagator : Type := LinVec → Option EndState

/-- The `LinearizedTrack` record returned on success (constructor order as
in the source: parameters, covariance, weight, linearization point,
position Jacobian, momentum Jacobian, PCA, momentum at PCA, constant
term). -/
structure LinearizedTrack where
  parameters : BoundVec
  covarianceAtPCA : BoundMat
  weightAtPCA : BoundMat
  linearizationPoint : Fin 4 → ℚ
  positionJacobian : Matrix (Fin 6) (Fin 4) ℚ
  momentumJacobian : Matrix (Fin 6) (Fin 3) ℚ
  positionAtPCA : Fin 4 → ℚ
  momentumAtPCA : Fin 3 → ℚ
  constantTerm : BoundVec
deriving DecidableEq

/-- Outcome of a `linearizeTrack` call.  The source dereferences the
propagation `Result` (line 51) and the covariance `optional` (line 55)
without checking them, so a failed propagation or an absent covariance does
not produce an error `Result` but an exception/undefined behaviour: this is
the `crash` outcome.  On the non-crashing path the only effect of the
wiggled-theta range check (lines 93-98) is the `ACTS_ERROR` log message,
recorded here as the Boolean `thetaErrorLogged`. -/
inductive LinOutcome where
  | crash : LinOutcome
  | ok (thetaErrorLogged : Bool) (lt : LinearizedTrack) : LinOutcome
deriving DecidableEq

/-- Modelled from the spec: `Acts::detail::difference_periodic` (its header
is not among the sources) computes the wrapped difference `lhs - rhs`
reduced into a half-open interval of length `range` around zero. -/
def difference_periodic (lhs rhs range : ℚ) : ℚ :=
  let d := lhs - rhs
  d - range * round (d / range)

/-- One iteration of the wiggle loop (source lines 103-137): perturb
coordinate `i` of `paramVec` by `delta`, re-propagate to the perigee
surface, and form the finite-difference column.  Every row holds the naive
difference quotient; row `eLinPhi = 4` is then overwritten with the
periodic difference of the *index-4 entries* of the two bound vectors
divided by `delta` (`completeJacobian(eLinPhi, i)` at lines 133-136; note
that in the bound parametrization index 4 is `eBoundQOverP`, not
`eBoundPhi = 2`).  `none` models the unchecked dereference of a failed
propagation (line 126). -/
def wiggleColumn (prop : PcaPropagator) (delta : ℚ) (perigeeParams : BoundVec)
    (paramVec : LinVec) (i : Fin 7) : Option (Fin 6 → ℚ) :=
  let paramVecCopy := Function.update paramVec i (paramVec i + delta)
  match prop paramVecCopy with
  | none => none
  | some newResult =>
    let newPerigeeParams := newResult.params
    some (fun r =>
      if (r : ℕ) = 4 then
        difference_periodic (newPerigeeParams 4) (perigeeParams 4) (2 * mPI)
          / delta
      else (newPerigeeParams r - perigeeParams r) / delta)

/-- The complete 6x7 Jacobian assembled column by column by the wiggle loop;
`none` when any of the seven wiggled propagations fails (in the source that
iteration crashes on the unchecked dereference). -/
def completeJacobianOpt (prop : PcaPropagator) (delta : ℚ)
    (perigeeParams : BoundVec) (paramVec : LinVec) :
    Option (Matrix (Fin 6) (Fin 7) ℚ) :=
  if h : ∀ i : Fin 7, (wiggleColumn prop delta perigeeParams paramVec i).isSome
  then some (Matrix.of fun r c =>
    ((wiggleColumn prop delta perigeeParams paramVec c).get (h c)) r)
  else none

/-- The part of `linearizeTrack` that runs once the first propagation has
succeeded (`endParams`, line 51) and its covariance is present
(`parCovarianceAtPCA`, line 55): weight as covariance inverse (line 56),
assembly of `paramVec`/`pca`/`momentumAtPCA` (lines 74-84), the log-only
wiggled-theta range check (lines 93-98), the wiggle loop (lines 103-137),
the block split (lines 139-143), the constant term (lines 145-147) and the
final `LinearizedTrack` (lines 149-151). -/
def linearizeTrackCore (prop : PcaPropagator) (delta : ℚ)
    (linPoint : Fin 4 → ℚ) (endParams : EndState)
    (parCovarianceAtPCA : BoundMat) : LinOutcome :=
  let weightAtPCA := matInvQ parCovarianceAtPCA
  let perigeeParams := endParams.params
  let paramVec : LinVec := fun i =>
    if h3 : (i : ℕ) < 3 then endParams.pos ⟨i, h3⟩
    else if (i : ℕ) = 3 then endParams.time
    else if (i : ℕ) = 4 then perigeeParams 2
    else if (i : ℕ) = 5 then perigeeParams 3
    else perigeeParams 4
  let pca : Fin 4 → ℚ := fun i =>
    if h3 : (i : ℕ) < 3 then endParams.pos ⟨i, h3⟩ else endParams.time
  let momentumAtPCA : Fin 3 → ℚ := fun i => perigeeParams ⟨2 + i, by omega⟩
  let thetaErrorLogged : Bool := decide (mPI < paramVec 5 + delta)
  match completeJacobianOpt prop delta perigeeParams paramVec with
  | none => LinOutcome.crash
  | some completeJacobian =>
    let positionJacobian : Matrix (Fin 6) (Fin 4) ℚ :=
      Matrix.of fun r c => completeJacobian r ⟨c, by omega⟩
    let momentumJacobian : Matrix (Fin 6) (Fin 3) ℚ :=
      Matrix.of fun r c => completeJacobian r ⟨4 + c, by omega⟩
    let constTerm : BoundVec :=
      perigeeParams - Matrix.mulVec positionJacobian pca
        - Matrix.mulVec momentumJacobian momentumAtPCA
    LinOutcome.ok thetaErrorLogged
      { parameters := perigeeParams
        covarianceAtPCA := parCovarianceAtPCA
        weightAtPCA := weightAtPCA
        linearizationPoint := linPoint
        positionJacobian := positionJacobian
        momentumJacobian := momentumJacobian
        positionAtPCA := pca
        momentumAtPCA := momentumAtPCA
        constantTerm := constTerm }

/-- Embedding of `NumericalTrackLinearizer::linearizeTrack`.  `track` is the
input `BoundTrackParameters` reduced to the 7-vector handed to the first
propagation; `delta` is `m_cfg.delta`; `linPoint` is the 4D linearization
point.  The two outer matches mirror the unchecked dereferences of the
propagation `Result` (line 51) and of the covariance `optional` (line 55):
the source provides no error return for them, failing them is a crash. -/
def linearizeTrack (prop : PcaPropagator) (delta : ℚ) (track : LinVec)
    (linPoint : Fin 4 → ℚ) : LinOutcome :=
  match prop track with
  | none => LinOutcome.crash
  | some endParams =>
    match endParams.cov with
    | none => LinOutcome.crash
    | some parCovarianceAtPCA =>
      linearizeTrackCore prop delta linPoint endParams parCovarianceAtPCA

end Linearizer

/- Concrete sample inputs used to evaluate the linearizer embedding. -/

/-- The all-zero 7-entry track vector. -/
def zeroLinVec : LinVec := fun _ => 0

/-- The all-zero 4D linearization point. -/
def zeroLinPoint : Fin 4 → ℚ := fun _ => 0

/-- A placeholder `LinearizedTrack`, used only as the unreachable branch of
extraction matches below. -/
def ltFallback : LinearizedTrack where
  parameters := fun _ => 0
  covarianceAtPCA := 1
  weightAtPCA := 1
  linearizationPoint := fun _ => 0
  positionJacobian := 0
  momentumJacobian := 0
  positionAtPCA := fun _ => 0
  momentumAtPCA := fun _ => 0
  constantTerm := fun _ => 0

/-- A propagation end state carrying no covariance. -/
def esNoCovSample : EndState where
  params := fun _ => 0
  pos := fun _ => 0
  time := 0
  cov := none

/-- C2: the source dereferences the propagation `Result` (line 51) and the
covariance `optional` (line 55) without checking them, so a failed
propagation to the PCA, or a propagated state without covariance, does not
produce a failure `Result`: it crashes (exception / undefined behaviour).
This contradicts the claimed contract that such inputs yield a failure
result without crashing. -/
theorem numLin_propFailure_crashes :
    linearizeTrack (fun _ => none) 1 zeroLinVec zeroLinPoint
      = LinOutcome.crash
    ∧ linearizeTrack (fun _ => some esNoCovSample) 1 zeroLinVec zeroLinPoint
      = LinOutcome.crash :=
  ⟨rfl, rfl⟩

/-- A propagation end state with theta = 0 and an identity covariance; with
`delta = 4` the wiggled theta `0 + 4` exceeds π. -/
def esThetaHigh : EndState where
  params := fun _ => 0
  pos := fun _ => 0
  time := 0
  cov := some 1

/-- The constant propagator returning `esThetaHigh`. -/
def propThetaHigh : PcaPropagator := fun _ => some esThetaHigh

/-- The `LinearizedTrack` actually produced by `linearizeTrack` on the
`esThetaHigh` configuration. -/
def ltThetaHigh : LinearizedTrack :=
  match linearizeTrack propThetaHigh 4 zeroLinVec zeroLinPoint with
  | LinOutcome.ok _ l => l
  | LinOutcome.crash => ltFallback

/-- C3 counterexample: at a concrete input where the wiggled theta
`0 + 4` exceeds π, `linearizeTrack` only logs (`thetaErrorLogged = true`)
and still proceeds to return an ordinary `LinearizedTrack`; no error is
reported to the caller. -/
theorem numLin_thetaRange_proceeds_cex :
    mPI < esThetaHigh.params 3 + 4
    ∧ linearizeTrack propThetaHigh 4 zeroLinVec zeroLinPoint
      = LinOutcome.ok true ltThetaHigh := by
  refine ⟨by norm_num [esThetaHigh, mPI], ?_⟩
  have h1 : linearizeTrack propThetaHigh 4 zeroLinVec zeroLinPoint
      = LinOutcome.ok (decide (mPI < esThetaHigh.params 3 + 4)) ltThetaHigh :=
    rfl
  rw [h1, decide_eq_true (by norm_num [esThetaHigh, mPI])]

/-- C3 (amended): when the wiggled theta would exceed π and the call does
not crash, the error is recorded only in the log (`thetaErrorLogged =
true`) and the call proceeds to return the ordinary `LinearizedTrack`:
theta is passed through unclamped into the momentum at the PCA and the
returned parameters are the unmodified perigee parameters. -/
theorem numLin_thetaRange_onlyLogs (prop : PcaPropagator) (delta : ℚ)
    (track : LinVec) (linPoint : Fin 4 → ℚ) (es : EndState) (C : BoundMat)
    (b : Bool) (lt : LinearizedTrack)
    (hprop : prop track = some es) (hcov : es.cov = some C)
    (htheta : mPI < es.params 3 + delta)
    (hok : linearizeTrack prop delta track linPoint = LinOutcome.ok b lt) :
    b = true ∧ lt.momentumAtPCA 1 = es.params 3
      ∧ lt.parameters = es.params := by
  unfold linearizeTrack at hok
  rw [hprop] at hok
  simp only [] at hok
  rw [hcov] at hok
  simp only [linearizeTrackCore] at hok
  split at hok
  · exact absurd hok (by simp)
  · cases hok
    refine ⟨decide_eq_true ?_, rfl, rfl⟩
    show mPI < es.params 3 + delta
    exact htheta

/-- Witness for `numLin_thetaRange_onlyLogs` at the `esThetaHigh`
configuration. -/
theorem numLin_thetaRange_onlyLogs_witness :
    true = true ∧ ltThetaHigh.momentumAtPCA 1 = esThetaHigh.params 3
      ∧ ltThetaHigh.parameters = esThetaHigh.params := by
  have hok : linearizeTrack propThetaHigh 4 zeroLinVec zeroLinPoint
      = LinOutcome.ok true ltThetaHigh := by
    have h1 : linearizeTrack propThetaHigh 4 zeroLinVec zeroLinPoint
        = LinOutcome.ok (decide (mPI < esThetaHigh.params 3 + 4)) ltThetaHigh :=
      rfl
    rw [h1, decide_eq_true (by norm_num [esThetaHigh, mPI])]
  exact numLin_thetaRange_onlyLogs propThetaHigh 4 zeroLinVec zeroLinPoint
    esThetaHigh 1 true ltThetaHigh rfl rfl
    (by norm_num [esThetaHigh, mPI]) hok

/-- Helper for C4: the reconstruction identity on the core computation. -/
theorem linearizeTrackCore_reconstruction (prop : PcaPropagator) (delta : ℚ)
    (linPoint : Fin 4 → ℚ) (es : EndState) (C : BoundMat)
    (b : Bool) (lt : LinearizedTrack)
    (h : linearizeTrackCore prop delta linPoint es C = LinOutcome.ok b lt) :
    Matrix.mulVec lt.positionJacobian lt.positionAtPCA
      + Matrix.mulVec lt.momentumJacobian lt.momentumAtPCA
      + lt.constantTerm = lt.parameters := by
  simp only [linearizeTrackCore] at h
  split at h
  · exact absurd h (by simp)
  · cases h
    funext i
    simp only [Pi.add_apply, Pi.sub_apply]
    ring

/-- C4: for every `LinearizedTrack` returned by `linearizeTrack`, the
constant term satisfies `constantTerm = parameters - positionJacobian * pca
- momentumJacobian * momentumAtPCA` exactly, so reconstructing
`positionJacobian * pca + momentumJacobian * momentumAtPCA + constantTerm`
reproduces the returned parameter vector exactly (source lines 145-147). -/
theorem numLin_constantTerm_reconstruction (prop : PcaPropagator)
    (delta : ℚ) (track : LinVec) (linPoint : Fin 4 → ℚ)
    (b : Bool) (lt : LinearizedTrack)
    (h : linearizeTrack prop delta track linPoint = LinOutcome.ok b lt) :
    Matrix.mulVec lt.positionJacobian lt.positionAtPCA
      + Matrix.mulVec lt.momentumJacobian lt.momentumAtPCA
      + lt.constantTerm = lt.parameters := by
  unfold linearizeTrack at h
  split at h
  · exact absurd h (by simp)
  · split at h
    · exact absurd h (by simp)
    · exact linearizeTrackCore_reconstruction _ _ _ _ _ _ _ h

/-- A nontrivial propagation end state used to evaluate the reconstruction
identity on concrete numbers. -/
def esRecon : EndState where
  params := fun r =>
    match (r : ℕ) with | 0 => 1 | 1 => 2 | 2 => 3 | 3 => 1 | 4 => 5 | _ => 6
  pos := fun j => match (j : ℕ) with | 0 => 10 | 1 => 20 | _ => 30
  time := 7
  cov := some 1

/-- The constant propagator returning `esRecon`. -/
def propRecon : PcaPropagator := fun _ => some esRecon

/-- The `LinearizedTrack` actually produced on the `esRecon`
configuration. -/
def ltRecon : LinearizedTrack :=
  match linearizeTrack propRecon 1 zeroLinVec zeroLinPoint with
  | LinOutcome.ok _ l => l
  | LinOutcome.crash => ltFallback

/-- Witness for `numLin_constantTerm_reconstruction` at the `esRecon`
configuration. -/
theorem numLin_constantTerm_reconstruction_witness :
    linearizeTrack propRecon 1 zeroLinVec zeroLinPoint
      = LinOutcome.ok (decide (mPI < esRecon.params 3 + 1)) ltRecon
    ∧ Matrix.mulVec ltRecon.positionJacobian ltRecon.positionAtPCA
      + Matrix.mulVec ltRecon.momentumJacobian ltRecon.momentumAtPCA
      + ltRecon.constantTerm = ltRecon.parameters :=
  ⟨rfl, numLin_constantTerm_reconstruction propRecon 1 zeroLinVec
    zeroLinPoint (decide (mPI < esRecon.params 3 + 1)) ltRecon rfl⟩

/-- Unperturbed perigee state for the phi-periodicity check:
phi (bound index 2) is `3`, q/p (bound index 4) is `0`. -/
def esPhiBase : EndState where
  params := fun r => match (r : ℕ) with | 2 => 3 | _ => 0
  pos := fun _ => 0
  time := 0
  cov := some 1

/-- Wiggled perigee state for the phi-periodicity check: phi is `-3`
(so the phi difference wraps across the ±π boundary) and q/p is `7`. -/
def esPhiWiggled : EndState where
  params := fun r => match (r : ℕ) with | 2 => -3 | 4 => 7 | _ => 0
  pos := fun _ => 0
  time := 0
  cov := none

/-- C8: the Jacobian column computed by the wiggle loop applies the naive
difference to the phi row (bound index 2): with the phi values `-3` and `3`
(which wrap across the ±π boundary) the entry is `-6`, not the periodic
difference `-6 + 2π` prescribed by the claim (second conjunct).  The
periodic subtraction is instead applied to row `eLinPhi = 4`, which in the
bound parametrization is the q/p row: with q/p values `7` and `0` that
entry is `7 - 2π` instead of the naive `7` (source lines 128-136 overwrite
`completeJacobian(eLinPhi, i)` using `newPerigeeParams(eLinPhi)`, but
`eLinPhi = 4` is a linearizer-vector index, not the bound-vector phi
index `eBoundPhi = 2`). -/
theorem numLin_phiRow_naiveDifference :
    Option.map (fun c => (c 2, c 4))
      (wiggleColumn (fun _ => some esPhiWiggled) 1 esPhiBase.params
        zeroLinVec 0)
      = some (-6, 7 - 2 * mPI)
    ∧ difference_periodic (esPhiWiggled.params 2) (esPhiBase.params 2)
        (2 * mPI)
      = -6 + 2 * mPI := by
  constructor
  · show some (((-3 : ℚ) - 3) / 1, difference_periodic 7 0 (2 * mPI) / 1)
      = some (-6, 7 - 2 * mPI)
    norm_num [difference_periodic, round_eq, mPI]
  · show difference_periodic (-3) 3 (2 * mPI) = -6 + 2 * mPI
    norm_num [difference_periodic, round_eq, mPI]

section Gx2FitterActor

/- ================================================================
   Gx2Fitter::Actor::operator() (source lines 433-533).
   One invocation of the actor during a propagation is driven by what
   the navigator currently reports (the current surface, whether it has
   a measurement, and the stepper's bound state there); these external
   inputs form one `ActorEvent`.  The calibrator output is absorbed
   into the event's calibrated measurement and covariance.
   ================================================================ -/

/-- The stepper's bound state at a surface (`stepper.boundState`, line
471): bound parameters, optional bound covariance, the step Jacobian and
the path length. -/
structure ActorBoundState where
  boundParams : BoundVec
  boundCov : Option BoundMat
  jacobian : BoundMat
  pathLength : ℚ

/-- The external data of one surface visit: the geometry id, whether
`inputMeasurements` holds a source link for it (line 466-468), the
result of `stepper.boundState` (`none` models `!res.ok()`, line 473),
and the calibrated 2D measurement with its covariance (lines 502-507). -/
structure SurfaceInfo where
  geoId : ℕ
  hasMeasurement : Bool
  boundState : Option ActorBoundState
  measurement : Fin 2 → ℚ
  measCov : Matrix (Fin 2) (Fin 2) ℚ

/-- One actor invocation's navigator input:
`navigator.currentSurface(state.navigation)`, which may be null. -/
structure ActorEvent where
  currentSurface : Option SurfaceInfo

/-- One appended entry of the shared trajectory (lines 481-525):
reference surface, predicted parameters, predicted covariance (set only
when present), step Jacobian and path length. -/
structure TrackStateEntry where
  refSurface : ℕ
  predicted : BoundVec
  predictedCov : Option BoundMat
  jacobian : BoundMat
  pathLength : ℚ

/-- The actor's mutable result (`Gx2FitterResult`, lines 292-345),
restricted to the fields the actor itself mutates. -/
structure ActorResult where
  trajectory : List TrackStateEntry
  collectorResiduals : List (Fin 2 → ℚ)
  collectorCovariance : List (Matrix (Fin 2) (Fin 2) ℚ)
  collectorJacobians : List BoundMat
  jacobianFromStart : BoundMat
  surfaceCount : ℕ
  finished : Bool

/-- The fresh actor result at the start of a propagation: empty
collectors, identity `jacobianFromStart`, zero `surfaceCount`, not
finished. -/
def initActorResult : ActorResult where
  trajectory := []
  collectorResiduals := []
  collectorCovariance := []
  collectorJacobians := []
  jacobianFromStart := 1
  surfaceCount := 0
  finished := false

/-- The surface-cap check at the end of an actor invocation (lines
529-532): once more than 11 surfaces have been counted, mark the result
finished. -/
def finishIfOverCap (r : ActorResult) : ActorResult :=
  if r.surfaceCount > 11 then { r with finished := true } else r

/-- Whether an event drives the actor into the early `return` taken when
`stepper.boundState` fails (lines 473-477); on that path the final
surface-cap check is skipped. -/
def isEarlyReturnEvent (e : ActorEvent) : Bool :=
  match e.currentSurface with
  | none => false
  | some s => s.hasMeasurement && s.boundState.isNone

/-- Embedding of one invocation of `Gx2Fitter::Actor::operator()` (lines
433-533): return immediately when already finished (line 440); count the
current surface (line 461); on a measurement surface with a good bound
state, chain the Jacobian from start (line 479), append a trajectory
entry (lines 481-525) and push residual, measurement covariance and
chained Jacobian into the collectors (lines 509-522); finally run the
surface-cap check (lines 529-532) - except on the early-return path of a
failed bound state (lines 473-477), which skips it. -/
def actorStep (evt : ActorEvent) (r : ActorResult) : ActorResult :=
  if r.finished then r
  else
    match evt.currentSurface with
    | none => finishIfOverCap r
    | some s =>
      let r1 := { r with surfaceCount := r.surfaceCount + 1 }
      if s.hasMeasurement then
        match s.boundState with
        | none => r1
        | some bs =>
          let jacobianFromStart := bs.jacobian * r1.jacobianFromStart
          let residual : Fin 2 → ℚ :=
            fun i => s.measurement i - bs.boundParams ⟨(i : ℕ), by omega⟩
          let entry : TrackStateEntry :=
            { refSurface := s.geoId
              predicted := bs.boundParams
              predictedCov := bs.boundCov
              jacobian := bs.jacobian
              pathLength := bs.pathLength }
          finishIfOverCap
            { r1 with
              jacobianFromStart := jacobianFromStart
              trajectory := r1.trajectory ++ [entry]
              collectorResiduals := r1.collectorResiduals ++ [residual]
              collectorCovariance := r1.collectorCovariance ++ [s.measCov]
              collectorJacobians := r1.collectorJacobians
                ++ [jacobianFromStart] }
      else finishIfOverCap r1

/-- The actor applied to a whole propagation's sequence of navigator
events. -/
def actorRun (evts : List ActorEvent) (r : ActorResult) : ActorResult :=
  evts.foldl (fun acc e => actorStep e acc) r

end Gx2FitterActor

section Gx2FitterFit

/- ================================================================
   Gx2Fitter::fit (source lines 578-751): the fixed-count update loop
   (lines 624-720), the normal-equations accumulation (lines 665-697),
   the reduced 4x4 solve (lines 699-708), the covariance finalization
   (lines 724-736) and the returned track (lines 738-750).
   One whole propagation (propagator + actor) is abstracted as a map
   from the current parameters to the collected per-measurement
   records, since `fit` only consumes the actor's collectors.  The
   Eigen `colPivHouseholderQr().solve` on the reduced system is an
   abstract solver parameter; no claim below depends on its values.
   ================================================================ -/

/-- One collected measurement of an iteration: residual, measurement
covariance and Jacobian-from-start (the entries pushed into
`collectorResiduals` / `collectorCovariance` / `collectorJacobians`). -/
structure MeasRecord where
  residual : Fin 2 → ℚ
  cov : Matrix (Fin 2) (Fin 2) ℚ
  jac : BoundMat

/-- Abstraction of one whole propagation (lines 650-656): from the current
track parameters to the collectors extracted from the propagation
result. -/
abbrev TrajPropagator : Type := BoundVec → List MeasRecord

/-- Abstraction of Eigen's `colPivHouseholderQr().solve` on the reduced
4x4 system (lines 701-704). -/
abbrev ReducedSolver : Type :=
  Matrix (Fin 4) (Fin 4) ℚ → (Fin 4 → ℚ) → (Fin 4 → ℚ)

/-- The projection matrix `proj` built at lines 672-680: zero except
`proj(0,0) = proj(1,1) = 1`. -/
def projFirstTwo : Matrix (Fin 2) (Fin 6) ℚ :=
  Matrix.of fun i j => if (j : ℕ) = (i : ℕ) then 1 else 0

/-- The normal-equations accumulation over all collected measurements
(lines 665-697): returns `(aMatrix, bVector, chi2sum)`. -/
def accumulateSystem (ms : List MeasRecord) : BoundMat × BoundVec × ℚ :=
  ms.foldl
    (fun acc m =>
      let coviInv := matInvQ m.cov
      let projectedJacobian := projFirstTwo * m.jac
      let chi2meas :=
        Matrix.dotProduct m.residual (Matrix.mulVec coviInv m.residual)
      let aMatrixMeas :=
        projectedJacobian.transpose * coviInv * projectedJacobian
      let bVectorMeas :=
        Matrix.mulVec projectedJacobian.transpose
          (Matrix.mulVec coviInv m.residual)
      (acc.1 + aMatrixMeas, acc.2.1 + bVectorMeas, acc.2.2 + chi2meas))
    (0, fun _ => 0, 0)

/-- The top-left 4x4 block of a 6x6 matrix
(`topLeftCorner<reducedMatrixSize, reducedMatrixSize>`). -/
def topLeft4 (A : BoundMat) : Matrix (Fin 4) (Fin 4) ℚ :=
  Matrix.of fun i j => A ⟨(i : ℕ), by omega⟩ ⟨(j : ℕ), by omega⟩

/-- The first four entries of a bound vector
(`topLeftCorner<reducedMatrixSize, 1>`). -/
def headFour (v : BoundVec) : Fin 4 → ℚ := fun i => v ⟨(i : ℕ), by omega⟩

/-- The working state of the fit loop: the current parameter estimate,
the pending update, the accumulated system of the latest iteration, and
the trace of parameter vectors handed to the propagator (one entry per
executed loop iteration). -/
structure Gx2fState where
  params : BoundVec
  deltaParams : BoundVec
  aMatrix : BoundMat
  bVector : BoundVec
  chi2sum : ℚ
  propagations : List BoundVec

/-- The state before the loop (lines 611-615): start parameters, zero
update, zero system, no propagations yet. -/
def gx2fInit (sParams : BoundVec) : Gx2fState where
  params := sParams
  deltaParams := fun _ => 0
  aMatrix := 0
  bVector := fun _ => 0
  chi2sum := 0
  propagations := []

/-- One iteration of the fit loop (lines 624-720): apply the pending
update to the parameters (line 629), propagate and collect (lines
636-663), re-accumulate the normal-equations system from scratch (lines
665-697), solve the reduced 4x4 system and embed the solution into a
6-vector whose last two entries (q/p and time) stay zero (lines
699-708). -/
def gx2fStep (solveReduced : ReducedSolver)
    (runPropagation : TrajPropagator) (s : Gx2fState) : Gx2fState :=
  let params := s.params + s.deltaParams
  let collected := runPropagation params
  let acc := accumulateSystem collected
  let deltaParamsReduced := solveReduced (topLeft4 acc.1) (headFour acc.2.1)
  let deltaParams : BoundVec :=
    fun i => if h : (i : ℕ) < 4 then deltaParamsReduced ⟨(i : ℕ), h⟩ else 0
  { params := params
    deltaParams := deltaParams
    aMatrix := acc.1
    bVector := acc.2.1
    chi2sum := acc.2.2
    propagations := s.propagations ++ [params] }

/-- The fit loop, iterated a fixed number of times
(`for (nUpdate = 0; nUpdate < nUpdateMax; nUpdate++)`, line 624; the body
contains no break). -/
def gx2fLoop (solveReduced : ReducedSolver)
    (runPropagation : TrajPropagator) : ℕ → Gx2fState → Gx2fState
  | 0, s => s
  | Nat.succ n, s =>
    gx2fLoop solveReduced runPropagation n
      (gx2fStep solveReduced runPropagation s)

/-- The final covariance embedding (lines 725-731): start from the 6x6
identity and overwrite the top-left 4x4 block with the inverse of the
reduced information matrix. -/
def embedReducedCov (B : Matrix (Fin 4) (Fin 4) ℚ) : BoundMat :=
  Matrix.of fun i j =>
    if hi : (i : ℕ) < 4 then
      if hj : (j : ℕ) < 4 then B ⟨(i : ℕ), hi⟩ ⟨(j : ℕ), hj⟩
      else (1 : BoundMat) i j
    else (1 : BoundMat) i j

/-- What `fit` hands back to the caller: there is no error-return path in
the source after the loop, so the output is total; `detZeroMsgPrinted`
records whether the `det(a) == 0 ... Implement real ERROR` message of
lines 732-736 was printed to stdout. -/
structure Gx2fOutput where
  trackParams : BoundVec
  trackCov : BoundMat
  detZeroMsgPrinted : Bool
  propagations : List BoundVec

/-- Embedding of `Gx2Fitter::fit` (lines 578-751): run the fixed-count
loop, then finalize the covariance - inverting the reduced block only
when its determinant is nonzero (lines 726-731) and otherwise leaving
the identity placeholder while only printing a message when
`nUpdateMax > 0` (lines 732-736) - and return the track with the final
parameters and covariance (lines 738-750). -/
def gx2fFit (solveReduced : ReducedSolver)
    (runPropagation : TrajPropagator) (nUpdateMax : ℕ)
    (sParams : BoundVec) : Gx2fOutput :=
  let sF := gx2fLoop solveReduced runPropagation nUpdateMax (gx2fInit sParams)
  let reduced := topLeft4 sF.aMatrix
  { trackParams := sF.params
    trackCov := if reduced.det = 0 then 1 else embedReducedCov (matInvQ reduced)
    detZeroMsgPrinted := decide (reduced.det = 0) && decide (0 < nUpdateMax)
    propagations := sF.propagations }

end Gx2FitterFit

/-- Helper for C7: each loop iteration appends exactly one entry to the
propagation trace. -/
theorem gx2fLoop_propagations_length (solveReduced : ReducedSolver)
    (runPropagation : TrajPropagator) :
    ∀ (n : ℕ) (s : Gx2fState),
      (gx2fLoop solveReduced runPropagation n s).propagations.length
        = s.propagations.length + n := by
  intro n
  induction n with
  | zero => intro s; rfl
  | succ m ih =>
    intro s
    have h2 : (gx2fStep solveReduced runPropagation s).propagations.length
        = s.propagations.length + 1 := by
      show (s.propagations ++ [s.params + s.deltaParams]).length
        = s.propagations.length + 1
      simp
    have h : (gx2fLoop solveReduced runPropagation (Nat.succ m) s)
        = gx2fLoop solveReduced runPropagation m
            (gx2fStep solveReduced runPropagation s) := rfl
    rw [h, ih (gx2fStep solveReduced runPropagation s), h2]
    omega

/-- C7: for every fit invocation the update loop body (one propagation
per iteration) executes exactly `nUpdateMax` times, whatever the
propagation results and the solver produce: there is no data-driven
convergence test and no early exit. -/
theorem gx2f_loop_runs_nUpdateMax (solveReduced : ReducedSolver)
    (runPropagation : TrajPropagator) (nUpdateMax : ℕ)
    (sParams : BoundVec) :
    (gx2fFit solveReduced runPropagation nUpdateMax
      sParams).propagations.length = nUpdateMax := by
  show (gx2fLoop solveReduced runPropagation nUpdateMax
    (gx2fInit sParams)).propagations.length = nUpdateMax
  rw [gx2fLoop_propagations_length]
  simp [gx2fInit]

/-- The time (index 5) and q/p (index 4) components of every vector in a
list of bound parameter vectors agree with those of the start
parameters. -/
def ParamsHeldFixed (sParams : BoundVec) : List BoundVec → Prop
  | [] => True
  | p :: rest =>
    (p 4 = sParams 4 ∧ p 5 = sParams 5) ∧ ParamsHeldFixed sParams rest

/-- Helper for C6: `ParamsHeldFixed` is preserved by appending one vector
that agrees with the start parameters at indices 4 and 5. -/
theorem ParamsHeldFixed_append (sParams : BoundVec) (p : BoundVec) :
    ∀ (l : List BoundVec), ParamsHeldFixed sParams l →
      (p 4 = sParams 4 ∧ p 5 = sParams 5) →
      ParamsHeldFixed sParams (l ++ [p]) := by
  intro l
  induction l with
  | nil => intro _ hp; exact ⟨hp, trivial⟩
  | cons q rest ih => intro hl hp; exact ⟨hl.1, ih hl.2 hp⟩

/-- Helper for C6: the solved update of any iteration has zero q/p and
time components. -/
theorem gx2fStep_delta_zero (solveReduced : ReducedSolver)
    (runPropagation : TrajPropagator) (s : Gx2fState) :
    (gx2fStep solveReduced runPropagation s).deltaParams 4 = 0
      ∧ (gx2fStep solveReduced runPropagation s).deltaParams 5 = 0 :=
  ⟨rfl, rfl⟩

/-- Helper for C6: through the whole loop, the q/p and time components of
the pending update stay zero and those of the working estimate and of
every propagated parameter vector stay at the start values. -/
theorem gx2fLoop_heldFixed (solveReduced : ReducedSolver)
    (runPropagation : TrajPropagator) (sParams : BoundVec) :
    ∀ (n : ℕ) (s : Gx2fState),
      s.deltaParams 4 = 0 → s.deltaParams 5 = 0 →
      s.params 4 = sParams 4 → s.params 5 = sParams 5 →
      ParamsHeldFixed sParams s.propagations →
      (gx2fLoop solveReduced runPropagation n s).params 4 = sParams 4
      ∧ (gx2fLoop solveReduced runPropagation n s).params 5 = sParams 5
      ∧ ParamsHeldFixed sParams
          (gx2fLoop solveReduced runPropagation n s).propagations := by
  intro n
  induction n with
  | zero => intro s _ _ hp4 hp5 hprop; exact ⟨hp4, hp5, hprop⟩
  | succ m ih =>
    intro s hd4 hd5 hp4 hp5 hprop
    have hb4 : (gx2fStep solveReduced runPropagation s).params 4
        = sParams 4 := by
      show s.params 4 + s.deltaParams 4 = sParams 4
      rw [hd4, hp4, add_zero]
    have hb5 : (gx2fStep solveReduced runPropagation s).params 5
        = sParams 5 := by
      show s.params 5 + s.deltaParams 5 = sParams 5
      rw [hd5, hp5, add_zero]
    have hbp : ParamsHeldFixed sParams
        (gx2fStep solveReduced runPropagation s).propagations := by
      show ParamsHeldFixed sParams
        (s.propagations ++ [s.params + s.deltaParams])
      exact ParamsHeldFixed_append sParams _ s.propagations hprop ⟨hb4, hb5⟩
    exact ih (gx2fStep solveReduced runPropagation s)
      (gx2fStep_delta_zero solveReduced runPropagation s).1
      (gx2fStep_delta_zero solveReduced runPropagation s).2
      hb4 hb5 hbp

/-- C6: in every iteration the solved update vector has zero q/p (index
4) and time (index 5) components, so those components of the working
parameter estimate - of every parameter vector handed to a propagation
and of the final track parameters - are unchanged from the start
parameters throughout the whole fit. -/
theorem gx2f_timeQoP_heldFixed (solveReduced : ReducedSolver)
    (runPropagation : TrajPropagator) (nUpdateMax : ℕ)
    (sParams : BoundVec) (s : Gx2fState) :
    ((gx2fStep solveReduced runPropagation s).deltaParams 4 = 0
      ∧ (gx2fStep solveReduced runPropagation s).deltaParams 5 = 0)
    ∧ (gx2fFit solveReduced runPropagation nUpdateMax
        sParams).trackParams 4 = sParams 4
    ∧ (gx2fFit solveReduced runPropagation nUpdateMax
        sParams).trackParams 5 = sParams 5
    ∧ ParamsHeldFixed sParams
        (gx2fFit solveReduced runPropagation nUpdateMax
          sParams).propagations := by
  have h := gx2fLoop_heldFixed solveReduced runPropagation sParams
    nUpdateMax (gx2fInit sParams) rfl rfl rfl rfl trivial
  exact ⟨gx2fStep_delta_zero solveReduced runPropagation s,
    h.1, h.2.1, h.2.2⟩

/-- C10: with `nUpdateMax = 0` the loop body never runs - no propagation
is performed - and the returned track carries exactly the start
parameters and exactly the identity covariance (the reduced information
matrix is still the zero matrix, whose determinant is zero, so the
inversion branch is skipped; with `nUpdateMax = 0` even the
`det(a) == 0` message is not printed). -/
theorem gx2f_zeroUpdates_identity (solveReduced : ReducedSolver)
    (runPropagation : TrajPropagator) (sParams : BoundVec) :
    (gx2fFit solveReduced runPropagation 0 sParams).trackParams = sParams
    ∧ (gx2fFit solveReduced runPropagation 0 sParams).trackCov = 1
    ∧ (gx2fFit solveReduced runPropagation 0 sParams).propagations = []
    ∧ (gx2fFit solveReduced runPropagation 0 sParams).detZeroMsgPrinted
      = false := by
  refine ⟨rfl, ?_, rfl, ?_⟩
  · show (if (topLeft4 (0 : BoundMat)).det = 0 then (1 : BoundMat)
      else embedReducedCov (matInvQ (topLeft4 (0 : BoundMat)))) = 1
    rw [show topLeft4 (0 : BoundMat) = (0 : Matrix (Fin 4) (Fin 4) ℚ)
      from rfl]
    rw [Matrix.det_zero ⟨0⟩]
    simp
  · show (decide ((topLeft4 (0 : BoundMat)).det = 0) && decide (0 < 0))
      = false
    simp

/-- The trivial reduced solver, standing in for the Eigen QR solve in
concrete evaluations. -/
def solveTrivial : ReducedSolver := fun _ _ => fun _ => 0

/-- A propagation that collects no measurements at all (for instance, no
surface with a source link was hit). -/
def runPropEmpty : TrajPropagator := fun _ => []

/-- The all-zero start parameters. -/
def startZero : BoundVec := fun _ => 0

/-- C1: a fit invocation (`nUpdateMax = 1`, no collected measurements)
in which the reduced information matrix after the loop is singular - its
determinant is zero - is NOT reported as a failure: `fit` has no error
return for this case (lines 732-736 only print a `TODO` message to
stdout) and it returns a successful track whose covariance is the
untouched identity placeholder. -/
theorem gx2f_singularInfo_returnsIdentityCov :
    (gx2fFit solveTrivial runPropEmpty 1 startZero).trackCov = 1
    ∧ (gx2fFit solveTrivial runPropEmpty 1
        startZero).detZeroMsgPrinted = true
    ∧ (gx2fFit solveTrivial runPropEmpty 1
        startZero).propagations.length = 1 := by
  refine ⟨?_, ?_, rfl⟩
  · show (if (topLeft4 (0 : BoundMat)).det = 0 then (1 : BoundMat)
      else embedReducedCov (matInvQ (topLeft4 (0 : BoundMat)))) = 1
    rw [show topLeft4 (0 : BoundMat) = (0 : Matrix (Fin 4) (Fin 4) ℚ)
      from rfl]
    rw [Matrix.det_zero ⟨0⟩]
    simp
  · show (decide ((topLeft4 (0 : BoundMat)).det = 0) && decide (0 < 1))
      = true
    rw [show topLeft4 (0 : BoundMat) = (0 : Matrix (Fin 4) (Fin 4) ℚ)
      from rfl]
    rw [Matrix.det_zero ⟨0⟩]
    simp

/-- Helper for C9: once `finished` is set, an actor invocation returns
immediately and leaves the result untouched (line 440). -/
theorem actorStep_finished (e : ActorEvent) (r : ActorResult)
    (hf : r.finished = true) : actorStep e r = r := by
  unfold actorStep
  rw [hf]
  rfl

/-- Helper for C9: every actor invocation that starts unfinished and does
not take the early return of a failed bound state ends in the
surface-cap check. -/
theorem actorStep_shape (e : ActorEvent) (r : ActorResult)
    (h0 : r.finished = false) (hnoEarly : isEarlyReturnEvent e = false) :
    ∃ x : ActorResult, actorStep e r = finishIfOverCap x := by
  unfold actorStep
  rw [h0]
  simp only [Bool.false_eq_true, if_false]
  unfold isEarlyReturnEvent at hnoEarly
  cases he : e.currentSurface with
  | none => exact ⟨r, rfl⟩
  | some s =>
    rw [he] at hnoEarly
    simp only [] at hnoEarly
    simp only []
    cases hm : s.hasMeasurement with
    | false =>
      simp only [Bool.false_eq_true, if_false]
      exact ⟨_, rfl⟩
    | true =>
      rw [if_pos rfl]
      cases hb : s.boundState with
      | none => rw [hm, hb] at hnoEarly; simp at hnoEarly
      | some bs => exact ⟨_, rfl⟩

/-- Helper for C9: the cap check marks the result finished whenever more
than 11 surfaces have been counted. -/
theorem finishIfOverCap_finished (x : ActorResult)
    (hx : 11 < x.surfaceCount) : (finishIfOverCap x).finished = true := by
  unfold finishIfOverCap
  rw [if_pos hx]

/-- Helper for C9: the cap check never changes the surface count. -/
theorem finishIfOverCap_surfaceCount (x : ActorResult) :
    (finishIfOverCap x).surfaceCount = x.surfaceCount := by
  unfold finishIfOverCap
  split <;> rfl

/-- An actor result that has already counted 11 surfaces and is not yet
finished. -/
def rAtCap : ActorResult where
  trajectory := []
  collectorResiduals := []
  collectorCovariance := []
  collectorJacobians := []
  jacobianFromStart := 1
  surfaceCount := 11
  finished := false

/-- The same state with `finished` already set. -/
def rFinished : ActorResult := { rAtCap with finished := true }

/-- A measurement surface on which `stepper.boundState` fails
(`!res.ok()`, line 473). -/
def surfBadBound : SurfaceInfo where
  geoId := 0
  hasMeasurement := true
  boundState := none
  measurement := fun _ => 0
  measCov := 1

/-- The navigator event for `surfBadBound`. -/
def evtBadBound : ActorEvent where
  currentSurface := some surfBadBound

/-- An ordinary measurement surface with a good bound state. -/
def surfGood : SurfaceInfo where
  geoId := 1
  hasMeasurement := true
  boundState := some
    { boundParams := fun _ => 0
      boundCov := some 1
      jacobian := 1
      pathLength := 0 }
  measurement := fun _ => 0
  measCov := 1

/-- The navigator event for `surfGood`. -/
def evtGood : ActorEvent where
  currentSurface := some surfGood

/-- C9 counterexample: starting from 11 counted surfaces, an invocation
on a measurement surface whose bound state fails counts the 12th surface
- exceeding the cap - but returns through the early `return` of lines
473-477, which skips the cap check: the result is NOT marked finished,
and the next invocation still processes another surface, appending to the
trajectory and to the residual collector. -/
theorem gx2fActor_capSkipped_cex :
    (actorStep evtBadBound rAtCap).surfaceCount = 12
    ∧ (actorStep evtBadBound rAtCap).finished = false
    ∧ (actorRun [evtBadBound, evtGood] rAtCap).collectorResiduals.length
      = 1
    ∧ (actorRun [evtBadBound, evtGood] rAtCap).trajectory.length = 1 :=
  ⟨rfl, rfl, rfl, rfl⟩

/-- C9 (amended): once `finished` is set the actor never processes
another surface, never appends a trajectory entry and never modifies the
collectors for the rest of the propagation (iterated invocations leave
the result unchanged); and any invocation that does NOT take the
early return of a failed bound state marks the result finished whenever
the surface count exceeds the cap of 11.  On the early-return path the
cap check is skipped, so the count can exceed the cap without finishing
(see the counterexample). -/
theorem gx2fActor_finished_and_cap (r rUnfinished : ActorResult)
    (evts : List ActorEvent) (e : ActorEvent)
    (hf : r.finished = true)
    (h0 : rUnfinished.finished = false)
    (hnoEarly : isEarlyReturnEvent e = false)
    (hcap : 11 < (actorStep e rUnfinished).surfaceCount) :
    actorRun evts r = r
    ∧ (actorStep e rUnfinished).finished = true := by
  constructor
  · induction evts with
    | nil => rfl
    | cons e2 rest ih =>
      show actorRun rest (actorStep e2 r) = r
      rw [actorStep_finished e2 r hf]
      exact ih
  · obtain ⟨x, hx⟩ := actorStep_shape e rUnfinished h0 hnoEarly
    rw [hx] at hcap ⊢
    rw [finishIfOverCap_surfaceCount] at hcap
    exact finishIfOverCap_finished x hcap

/-- Witness for `gx2fActor_finished_and_cap` at concrete inputs. -/
theorem gx2fActor_finished_and_cap_witness :
    actorRun [evtGood] rFinished = rFinished
    ∧ (actorStep evtGood rAtCap).finished = true :=
  gx2fActor_finished_and_cap rFinished rAtCap [evtGood] evtGood
    rfl rfl rfl (by decide)
